import Mathlib

/-!
# uio: `Events.Dial` (events_unix.go)

A shallow embedding of `func (ev *Events) Dial(addr string, ctx interface{}) (Conn, error)`.

`Dial` is a straight-line sequence of calls into the Go standard library
(`strings`, `net/url`, `net`, `syscall`) and into three helpers of the package that
live in other files (`socket.DupNetConn`, `ev.selectLoop`, `ev.addConn`).  None of
these callees is part of the function, so each of them is a field of an environment
`Env`; the stateful ones thread an abstract world state `σ`.  `Dial` itself is
translated statement by statement and additionally records, in order, every call
it makes (`Event`), so that "is closed exactly once", "is never called" and
"happens before" are statements about the recorded call sequence.

Go strings are modelled by Lean `String`s; `strings.Contains` and
`strings.HasPrefix` are taken on the sequence of characters.  The two patterns `Dial`
searches for, `"://"` and `"udp"`, are ASCII, for which searching characters and
searching UTF-8 bytes give the same answer.
-/

namespace Uio

/-! ## `strings.Contains`, `strings.HasPrefix` -/

/-- Go `strings.HasPrefix(s, prefix)`: `s` begins with `prefix`. -/
def HasPrefix (s pre : String) : Bool :=
  pre.data.isPrefixOf s.data

/-- Substring search on character lists: does `sub` start at some position of `s`. -/
def containsChars (sub : List Char) : List Char → Bool
  | [] => sub.isPrefixOf []
  | c :: cs => sub.isPrefixOf (c :: cs) || containsChars sub cs

/-- Go `strings.Contains(s, substr)`: `substr` is within `s`. -/
def Contains (s substr : String) : Bool :=
  containsChars substr.data s.data

/-! ## Data model -/

/-- The fields of `net/url.URL` that `Dial` reads. -/
structure URL where
  Scheme : String
  Host : String
  Path : String
deriving DecidableEq, Repr

/-- The fields of `fdConn` that `Dial` assigns (`fdc := &fdConn{}` followed by
seven field assignments). -/
structure fdConn (Events Ctx Addr Loop : Type) where
  fd : Int
  ctx : Ctx
  localAddr : Addr
  remoteAddr : Addr
  events : Events
  loop : Loop
  isUdp : Bool
deriving DecidableEq, Repr

/-- One call made by `Dial`, in the order the calls are made. -/
inductive Event (NetConn Conn : Type) where
  | urlParse (rawURL : String)
  | netDial (network address : String)
  | LocalAddr (conn : NetConn)
  | RemoteAddr (conn : NetConn)
  | DupNetConn (conn : NetConn)
  | connClose (conn : NetConn)
  | SetNonblock (fd : Int) (nonblocking : Bool)
  | sysClose (fd : Int)
  | selectLoop (fd : Int)
  | addConn (fdc : Conn)
deriving DecidableEq, Repr

/-- The callees of `Dial`.  A Go `(T, error)` result is an `Except ε T`, a lone
`error` result is an `Option ε` (`none` is the nil error).  `σ` is the state of
everything outside `Dial` (kernel descriptor table, loops, counters). -/
structure Env (σ ε NetConn Addr Loop Ctx Events : Type) where
  /-- Go `url.Parse(rawURL)`. -/
  urlParse : String → Except ε URL
  /-- Go `net.Dial(network, address)`. -/
  netDial : String → String → σ → Except ε NetConn × σ
  /-- Go `conn.LocalAddr()`. -/
  LocalAddr : NetConn → σ → Addr
  /-- Go `conn.RemoteAddr()`. -/
  RemoteAddr : NetConn → σ → Addr
  /-- Package helper `socket.DupNetConn(conn)`. -/
  DupNetConn : NetConn → σ → Except ε Int × σ
  /-- Go `conn.Close()`; `Dial` discards its error. -/
  connClose : NetConn → σ → σ
  /-- Go `syscall.SetNonblock(fd, nonblocking)`. -/
  SetNonblock : Int → Bool → σ → Option ε × σ
  /-- Go `syscall.Close(fd)`; `Dial` discards its error. -/
  sysClose : Int → σ → σ
  /-- Method `ev.selectLoop(fd)`. -/
  selectLoop : Events → Int → σ → Loop × σ
  /-- Method `ev.addConn(fdc)`. -/
  addConn : Events → fdConn Events Ctx Addr Loop → σ → Option ε × σ

/-- What a call of `Dial` leaves behind: the two Go results (`Conn`, `error`), the
calls it made, and the world after it. -/
structure DialResult (σ ε NetConn Addr Loop Ctx Events : Type) where
  conn : Option (fdConn Events Ctx Addr Loop)
  err : Option ε
  trace : List (Event NetConn (fdConn Events Ctx Addr Loop))
  world : σ

section
variable {σ ε NetConn Addr Loop Ctx Events : Type}

/-- Lines 48-50: `if !strings.Contains(addr, "://") { addr = "tcp://" + addr }`. -/
def dialURL (addr : String) : String :=
  if !Contains addr "://" then "tcp://" ++ addr else addr

/-- Lines 57-60: `address = u.Host`, replaced by `u.Path` for the unix family. -/
def dialAddress (u : URL) : String :=
  if u.Scheme == "unix" || u.Scheme == "unixgram" || u.Scheme == "unixpacket" then u.Path
  else u.Host

/-- Method `func (ev *Events) Dial(addr string, ctx interface{}) (Conn, error)`,
lines 46-97. -/
def Dial (E : Env σ ε NetConn Addr Loop Ctx Events) (ev : Events) (addr : String) (ctx : Ctx)
    (w : σ) : DialResult σ ε NetConn Addr Loop Ctx Events :=
  let addr := dialURL addr
  let t := [Event.urlParse addr]
  match E.urlParse addr with
  | .error err => ⟨none, some err, t, w⟩
  | .ok u =>
    let address := dialAddress u
    let t := t ++ [Event.netDial u.Scheme address]
    match E.netDial u.Scheme address w with
    | (.error err, w) => ⟨none, some err, t, w⟩
    | (.ok conn, w) =>
      let lAddr := E.LocalAddr conn w
      let t := t ++ [Event.LocalAddr conn]
      let rAddr := E.RemoteAddr conn w
      let t := t ++ [Event.RemoteAddr conn]
      let (r, w) := E.DupNetConn conn w
      let t := t ++ [Event.DupNetConn conn]
      -- close old fd
      let w := E.connClose conn w
      let t := t ++ [Event.connClose conn]
      match r with
      | .error err => ⟨none, some err, t, w⟩ -- dup failed
      | .ok nfd =>
        let t := t ++ [Event.SetNonblock nfd true]
        match E.SetNonblock nfd true w with
        | (some err, w) =>
          let w := E.sysClose nfd w
          let t := t ++ [Event.sysClose nfd]
          ⟨none, some err, t, w⟩
        | (none, w) =>
          let (loop, w) := E.selectLoop ev nfd w
          let t := t ++ [Event.selectLoop nfd]
          let fdc : fdConn Events Ctx Addr Loop :=
            { fd := nfd, ctx := ctx, localAddr := lAddr, remoteAddr := rAddr, events := ev,
              loop := loop, isUdp := HasPrefix u.Scheme "udp" }
          let t := t ++ [Event.addConn fdc]
          match E.addConn ev fdc w with
          | (some err, w) => ⟨none, some err, t, w⟩
          | (none, w) => ⟨some fdc, none, t, w⟩

/-- The connection `Dial` builds once the descriptor is non-blocking (lines 84-91):
`c` is the wrapper returned by `net.Dial`, `w1` the world in which its addresses are
read, `nfd` the duplicated descriptor, `w4` the world in which `ev.selectLoop` is
called. -/
def builtConn (E : Env σ ε NetConn Addr Loop Ctx Events) (ev : Events) (ctx : Ctx) (u : URL)
    (c : NetConn) (w1 : σ) (nfd : Int) (w4 : σ) : fdConn Events Ctx Addr Loop :=
  { fd := nfd, ctx := ctx, localAddr := E.LocalAddr c w1, remoteAddr := E.RemoteAddr c w1,
    events := ev, loop := (E.selectLoop ev nfd w4).1, isUdp := HasPrefix u.Scheme "udp" }

/-- All five fallible steps of `Dial E ev addr ctx w` succeed, with the named
intermediate results: `u` the parsed URL, `c` the wrapper and `w1` the world after
`net.Dial`, `nfd` the duplicate and `w2` the world after `DupNetConn`, `w4` the world
after `SetNonblock`, `w6` the world after `addConn`. -/
structure Succeeds (E : Env σ ε NetConn Addr Loop Ctx Events) (ev : Events) (addr : String)
    (ctx : Ctx) (w : σ) (u : URL) (c : NetConn) (w1 : σ) (nfd : Int) (w2 w4 w6 : σ) :
    Prop where
  parse : E.urlParse (dialURL addr) = .ok u
  connect : E.netDial u.Scheme (dialAddress u) w = (.ok c, w1)
  dup : E.DupNetConn c w1 = (.ok nfd, w2)
  nonblock : E.SetNonblock nfd true (E.connClose c w2) = (none, w4)
  register : E.addConn ev (builtConn E ev ctx u c w1 nfd w4) (E.selectLoop ev nfd w4).2
    = (none, w6)

end

/-! ## A small concrete world -/

/-- The steps of `Dial` that can fail. -/
inductive Step where
  | parse | connect | dup | nonblock | register
deriving DecidableEq, Repr

/-- A toy URI table: five addresses, split into scheme, host and path the way
`url.Parse` splits them; every other string is a parse error. -/
def toyParse (s : String) : Except String URL :=
  if s = "tcp://:80" then .ok ⟨"tcp", ":80", ""⟩
  else if s = "tcp://127.0.0.1:9" then .ok ⟨"tcp", "127.0.0.1:9", ""⟩
  else if s = "udp://127.0.0.1:53" then .ok ⟨"udp", "127.0.0.1:53", ""⟩
  else if s = "unix:///path/your/unix.sock" then .ok ⟨"unix", "", "/path/your/unix.sock"⟩
  else if s = "unixgram:///tmp/test.sock" then .ok ⟨"unixgram", "", "/tmp/test.sock"⟩
  else .error "parse error"

/-- A toy world.  Its state is the list of open descriptors.  `net.Dial` opens
descriptor 3, `DupNetConn` opens descriptor 4, closing removes a descriptor, the
loop of a descriptor is `fd % ev`; the step `fail`, if any, returns an error. -/
def toyEnv (fail : Option Step) : Env (List Int) String Int String Int String Int where
  urlParse s := if fail = some .parse then .error "parse failed" else toyParse s
  netDial _ _ w := if fail = some .connect then (.error "connect failed", w) else (.ok 3, 3 :: w)
  LocalAddr _ _ := "local"
  RemoteAddr _ _ := "remote"
  DupNetConn _ w := if fail = some .dup then (.error "dup failed", w) else (.ok 4, 4 :: w)
  connClose c w := w.erase c
  SetNonblock _ _ w := if fail = some .nonblock then (some "setnonblock failed", w) else (none, w)
  sysClose fd w := w.erase fd
  selectLoop ev fd w := (fd % ev, w)
  addConn _ _ w := if fail = some .register then (some "register failed", w) else (none, w)

/-! ## Reading a call sequence -/

section
variable {NetConn Conn : Type}

/-- The strings handed to `url.Parse`, in order. -/
def parseCalls (t : List (Event NetConn Conn)) : List String :=
  t.filterMap fun e => match e with
    | .urlParse s => some s
    | _ => none

/-- The `(network, address)` pairs handed to `net.Dial`, in order. -/
def connectCalls (t : List (Event NetConn Conn)) : List (String × String) :=
  t.filterMap fun e => match e with
    | .netDial n a => some (n, a)
    | _ => none

/-- The wrappers handed to `socket.DupNetConn`, in order. -/
def dupCalls (t : List (Event NetConn Conn)) : List NetConn :=
  t.filterMap fun e => match e with
    | .DupNetConn c => some c
    | _ => none

/-- The wrappers on which `Close()` was called, in order. -/
def wrapperCloses (t : List (Event NetConn Conn)) : List NetConn :=
  t.filterMap fun e => match e with
    | .connClose c => some c
    | _ => none

/-- The descriptors handed to `syscall.SetNonblock`, in order. -/
def nonblockCalls (t : List (Event NetConn Conn)) : List (Int × Bool) :=
  t.filterMap fun e => match e with
    | .SetNonblock fd b => some (fd, b)
    | _ => none

/-- The descriptors handed to `syscall.Close`, in order. -/
def fdCloses (t : List (Event NetConn Conn)) : List Int :=
  t.filterMap fun e => match e with
    | .sysClose fd => some fd
    | _ => none

/-- The descriptors handed to `ev.selectLoop`, in order. -/
def selectLoopCalls (t : List (Event NetConn Conn)) : List Int :=
  t.filterMap fun e => match e with
    | .selectLoop fd => some fd
    | _ => none

/-- The connections handed to `ev.addConn`, in order. -/
def addConnCalls (t : List (Event NetConn Conn)) : List Conn :=
  t.filterMap fun e => match e with
    | .addConn c => some c
    | _ => none

end

/-! ## `strings.Contains` -/

/-- The search agrees with the infix relation on lists. -/
theorem containsChars_iff (sub s : List Char) : containsChars sub s = true ↔ sub <:+: s := by
  induction s with
  | nil => simp [containsChars, List.isPrefixOf_iff_prefix]
  | cons c cs ih =>
    simp only [containsChars, Bool.or_eq_true, ih, List.isPrefixOf_iff_prefix]
    rw [List.infix_cons_iff]

/-- A string to which `"tcp://"` was prepended contains `"://"`. -/
theorem Contains_tcp_prepended (addr : String) : Contains ("tcp://" ++ addr) "://" = true := by
  unfold Contains
  rw [containsChars_iff]
  refine ⟨"tcp".data, addr.data, ?_⟩
  simp [String.data_append]

/-- The defaulting step leaves a string that already has `"tcp://"` in front alone. -/
theorem dialURL_tcp_prepended (addr : String) : dialURL ("tcp://" ++ addr) = "tcp://" ++ addr := by
  simp [dialURL, Contains_tcp_prepended]

/-- The defaulting step is idempotent. -/
theorem dialURL_idem (addr : String) : dialURL (dialURL addr) = dialURL addr := by
  by_cases h : Contains addr "://" = true
  · simp [dialURL, h]
  · have h1 : dialURL addr = "tcp://" ++ addr := by simp [dialURL, h]
    rw [h1, dialURL_tcp_prepended]

/-! ## The six paths through `Dial` -/

section
variable {σ ε NetConn Addr Loop Ctx Events : Type}
variable (E : Env σ ε NetConn Addr Loop Ctx Events) (ev : Events) (addr : String) (ctx : Ctx)
variable (w : σ)

/-- Path 1: `url.Parse` fails. -/
theorem Dial_parse_error {e : ε} (hp : E.urlParse (dialURL addr) = .error e) :
    Dial E ev addr ctx w = ⟨none, some e, [.urlParse (dialURL addr)], w⟩ := by
  simp [Dial, hp]

/-- Path 2: `net.Dial` fails. -/
theorem Dial_connect_error {u : URL} {e : ε} {w1 : σ}
    (hp : E.urlParse (dialURL addr) = .ok u)
    (hc : E.netDial u.Scheme (dialAddress u) w = (.error e, w1)) :
    Dial E ev addr ctx w =
      ⟨none, some e, [.urlParse (dialURL addr), .netDial u.Scheme (dialAddress u)], w1⟩ := by
  simp [Dial, hp, hc]

/-- Path 3: `socket.DupNetConn` fails. -/
theorem Dial_dup_error {u : URL} {c : NetConn} {e : ε} {w1 w2 : σ}
    (hp : E.urlParse (dialURL addr) = .ok u)
    (hc : E.netDial u.Scheme (dialAddress u) w = (.ok c, w1))
    (hd : E.DupNetConn c w1 = (.error e, w2)) :
    Dial E ev addr ctx w =
      ⟨none, some e,
        [.urlParse (dialURL addr), .netDial u.Scheme (dialAddress u), .LocalAddr c,
          .RemoteAddr c, .DupNetConn c, .connClose c],
        E.connClose c w2⟩ := by
  simp [Dial, hp, hc, hd]

/-- Path 4: `syscall.SetNonblock` fails. -/
theorem Dial_nonblock_error {u : URL} {c : NetConn} {nfd : Int} {e : ε} {w1 w2 w4 : σ}
    (hp : E.urlParse (dialURL addr) = .ok u)
    (hc : E.netDial u.Scheme (dialAddress u) w = (.ok c, w1))
    (hd : E.DupNetConn c w1 = (.ok nfd, w2))
    (hn : E.SetNonblock nfd true (E.connClose c w2) = (some e, w4)) :
    Dial E ev addr ctx w =
      ⟨none, some e,
        [.urlParse (dialURL addr), .netDial u.Scheme (dialAddress u), .LocalAddr c,
          .RemoteAddr c, .DupNetConn c, .connClose c, .SetNonblock nfd true, .sysClose nfd],
        E.sysClose nfd w4⟩ := by
  simp [Dial, hp, hc, hd, hn]

/-- Path 5: `ev.addConn` fails. -/
theorem Dial_register_error {u : URL} {c : NetConn} {nfd : Int} {e : ε} {w1 w2 w4 w6 : σ}
    (hp : E.urlParse (dialURL addr) = .ok u)
    (hc : E.netDial u.Scheme (dialAddress u) w = (.ok c, w1))
    (hd : E.DupNetConn c w1 = (.ok nfd, w2))
    (hn : E.SetNonblock nfd true (E.connClose c w2) = (none, w4))
    (ha : E.addConn ev (builtConn E ev ctx u c w1 nfd w4) (E.selectLoop ev nfd w4).2
      = (some e, w6)) :
    Dial E ev addr ctx w =
      ⟨none, some e,
        [.urlParse (dialURL addr), .netDial u.Scheme (dialAddress u), .LocalAddr c,
          .RemoteAddr c, .DupNetConn c, .connClose c, .SetNonblock nfd true, .selectLoop nfd,
          .addConn (builtConn E ev ctx u c w1 nfd w4)],
        w6⟩ := by
  unfold builtConn at ha
  simp [Dial, hp, hc, hd, hn, ha, builtConn]

/-- Path 6: every step succeeds. -/
theorem Dial_success {u : URL} {c : NetConn} {nfd : Int} {w1 w2 w4 w6 : σ}
    (hp : E.urlParse (dialURL addr) = .ok u)
    (hc : E.netDial u.Scheme (dialAddress u) w = (.ok c, w1))
    (hd : E.DupNetConn c w1 = (.ok nfd, w2))
    (hn : E.SetNonblock nfd true (E.connClose c w2) = (none, w4))
    (ha : E.addConn ev (builtConn E ev ctx u c w1 nfd w4) (E.selectLoop ev nfd w4).2
      = (none, w6)) :
    Dial E ev addr ctx w =
      ⟨some (builtConn E ev ctx u c w1 nfd w4), none,
        [.urlParse (dialURL addr), .netDial u.Scheme (dialAddress u), .LocalAddr c,
          .RemoteAddr c, .DupNetConn c, .connClose c, .SetNonblock nfd true, .selectLoop nfd,
          .addConn (builtConn E ev ctx u c w1 nfd w4)],
        w6⟩ := by
  unfold builtConn at ha
  simp [Dial, hp, hc, hd, hn, ha, builtConn]

/-- Every call of `Dial` ends on one of the six paths: either some step failed and
the results are `(nil, err)`, or all steps succeeded and the results are `(fdc, nil)`. -/
theorem Dial_outcome :
    (∃ e, (Dial E ev addr ctx w).conn = none ∧ (Dial E ev addr ctx w).err = some e) ∨
    (∃ u c w1 nfd w2 w4 w6, Succeeds E ev addr ctx w u c w1 nfd w2 w4 w6 ∧
      (Dial E ev addr ctx w).conn = some (builtConn E ev ctx u c w1 nfd w4) ∧
      (Dial E ev addr ctx w).err = none) := by
  cases hp : E.urlParse (dialURL addr) with
  | error e => left; rw [Dial_parse_error E ev addr ctx w hp]; exact ⟨e, rfl, rfl⟩
  | ok u =>
    rcases hc : E.netDial u.Scheme (dialAddress u) w with ⟨e | c, w1⟩
    · left; rw [Dial_connect_error E ev addr ctx w hp hc]; exact ⟨e, rfl, rfl⟩
    rcases hd : E.DupNetConn c w1 with ⟨e | nfd, w2⟩
    · left; rw [Dial_dup_error E ev addr ctx w hp hc hd]; exact ⟨e, rfl, rfl⟩
    rcases hn : E.SetNonblock nfd true (E.connClose c w2) with ⟨_ | e, w4⟩
    · rcases ha : E.addConn ev (builtConn E ev ctx u c w1 nfd w4) (E.selectLoop ev nfd w4).2
        with ⟨_ | e, w6⟩
      · right
        rw [Dial_success E ev addr ctx w hp hc hd hn ha]
        exact ⟨u, c, w1, nfd, w2, w4, w6, ⟨hp, hc, hd, hn, ha⟩, rfl, rfl⟩
      · left; rw [Dial_register_error E ev addr ctx w hp hc hd hn ha]; exact ⟨e, rfl, rfl⟩
    · left; rw [Dial_nonblock_error E ev addr ctx w hp hc hd hn]; exact ⟨e, rfl, rfl⟩

/-- A connection is returned only on path 6. -/
theorem Dial_conn_some {fdc : fdConn Events Ctx Addr Loop}
    (h : (Dial E ev addr ctx w).conn = some fdc) :
    ∃ u c w1 nfd w2 w4 w6, Succeeds E ev addr ctx w u c w1 nfd w2 w4 w6 ∧
      fdc = builtConn E ev ctx u c w1 nfd w4 := by
  rcases Dial_outcome E ev addr ctx w with ⟨e, hn, _⟩ | ⟨u, c, w1, nfd, w2, w4, w6, hs, hc, _⟩
  · rw [hn] at h; cases h
  · rw [hc] at h
    exact ⟨u, c, w1, nfd, w2, w4, w6, hs, (Option.some.inj h).symm⟩

/-- Parser calls: `url.Parse` is called exactly once, on the defaulted address. -/
theorem Dial_parseCalls : parseCalls (Dial E ev addr ctx w).trace = [dialURL addr] := by
  cases hp : E.urlParse (dialURL addr) with
  | error e => rw [Dial_parse_error E ev addr ctx w hp]; simp [parseCalls]
  | ok u =>
    rcases hc : E.netDial u.Scheme (dialAddress u) w with ⟨e | c, w1⟩
    · rw [Dial_connect_error E ev addr ctx w hp hc]; simp [parseCalls]
    rcases hd : E.DupNetConn c w1 with ⟨e | nfd, w2⟩
    · rw [Dial_dup_error E ev addr ctx w hp hc hd]; simp [parseCalls]
    rcases hn : E.SetNonblock nfd true (E.connClose c w2) with ⟨_ | e, w4⟩
    · rcases ha : E.addConn ev (builtConn E ev ctx u c w1 nfd w4) (E.selectLoop ev nfd w4).2
        with ⟨_ | e, w6⟩
      · rw [Dial_success E ev addr ctx w hp hc hd hn ha]; simp [parseCalls]
      · rw [Dial_register_error E ev addr ctx w hp hc hd hn ha]; simp [parseCalls]
    · rw [Dial_nonblock_error E ev addr ctx w hp hc hd hn]; simp [parseCalls]

/-- Once the address is parsed, `net.Dial` is called exactly once, with the parsed
scheme and the selected address. -/
theorem Dial_connectCalls {u : URL} (hp : E.urlParse (dialURL addr) = .ok u) :
    connectCalls (Dial E ev addr ctx w).trace = [(u.Scheme, dialAddress u)] := by
  rcases hc : E.netDial u.Scheme (dialAddress u) w with ⟨e | c, w1⟩
  · rw [Dial_connect_error E ev addr ctx w hp hc]; simp [connectCalls]
  rcases hd : E.DupNetConn c w1 with ⟨e | nfd, w2⟩
  · rw [Dial_dup_error E ev addr ctx w hp hc hd]; simp [connectCalls]
  rcases hn : E.SetNonblock nfd true (E.connClose c w2) with ⟨_ | e, w4⟩
  · rcases ha : E.addConn ev (builtConn E ev ctx u c w1 nfd w4) (E.selectLoop ev nfd w4).2
      with ⟨_ | e, w6⟩
    · rw [Dial_success E ev addr ctx w hp hc hd hn ha]; simp [connectCalls]
    · rw [Dial_register_error E ev addr ctx w hp hc hd hn ha]; simp [connectCalls]
  · rw [Dial_nonblock_error E ev addr ctx w hp hc hd hn]; simp [connectCalls]

/-- Wrapper closes: once `net.Dial` has returned `c`, `c.Close()` is the one wrapper
close. -/
theorem Dial_wrapperCloses {u : URL} {c : NetConn} {w1 : σ}
    (hp : E.urlParse (dialURL addr) = .ok u)
    (hc : E.netDial u.Scheme (dialAddress u) w = (.ok c, w1)) :
    wrapperCloses (Dial E ev addr ctx w).trace = [c] := by
  rcases hd : E.DupNetConn c w1 with ⟨e | nfd, w2⟩
  · rw [Dial_dup_error E ev addr ctx w hp hc hd]; simp [wrapperCloses]
  rcases hn : E.SetNonblock nfd true (E.connClose c w2) with ⟨_ | e, w4⟩
  · rcases ha : E.addConn ev (builtConn E ev ctx u c w1 nfd w4) (E.selectLoop ev nfd w4).2
      with ⟨_ | e, w6⟩
    · rw [Dial_success E ev addr ctx w hp hc hd hn ha]; simp [wrapperCloses]
    · rw [Dial_register_error E ev addr ctx w hp hc hd hn ha]; simp [wrapperCloses]
  · rw [Dial_nonblock_error E ev addr ctx w hp hc hd hn]; simp [wrapperCloses]

/-- Duplications: once `net.Dial` has returned `c`, `DupNetConn(c)` is the one
duplication attempt. -/
theorem Dial_dupCalls {u : URL} {c : NetConn} {w1 : σ}
    (hp : E.urlParse (dialURL addr) = .ok u)
    (hc : E.netDial u.Scheme (dialAddress u) w = (.ok c, w1)) :
    dupCalls (Dial E ev addr ctx w).trace = [c] := by
  rcases hd : E.DupNetConn c w1 with ⟨e | nfd, w2⟩
  · rw [Dial_dup_error E ev addr ctx w hp hc hd]; simp [dupCalls]
  rcases hn : E.SetNonblock nfd true (E.connClose c w2) with ⟨_ | e, w4⟩
  · rcases ha : E.addConn ev (builtConn E ev ctx u c w1 nfd w4) (E.selectLoop ev nfd w4).2
      with ⟨_ | e, w6⟩
    · rw [Dial_success E ev addr ctx w hp hc hd hn ha]; simp [dupCalls]
    · rw [Dial_register_error E ev addr ctx w hp hc hd hn ha]; simp [dupCalls]
  · rw [Dial_nonblock_error E ev addr ctx w hp hc hd hn]; simp [dupCalls]

/-- On the registration-failure path `Dial` makes no `syscall.Close` call at all. -/
theorem Dial_register_error_no_close {u : URL} {c : NetConn} {nfd : Int} {e : ε}
    {w1 w2 w4 w6 : σ}
    (hp : E.urlParse (dialURL addr) = .ok u)
    (hc : E.netDial u.Scheme (dialAddress u) w = (.ok c, w1))
    (hd : E.DupNetConn c w1 = (.ok nfd, w2))
    (hn : E.SetNonblock nfd true (E.connClose c w2) = (none, w4))
    (ha : E.addConn ev (builtConn E ev ctx u c w1 nfd w4) (E.selectLoop ev nfd w4).2
      = (some e, w6)) :
    fdCloses (Dial E ev addr ctx w).trace = [] ∧ (Dial E ev addr ctx w).world = w6 := by
  rw [Dial_register_error E ev addr ctx w hp hc hd hn ha]
  simp [fdCloses]

end

/-! ## The claims -/

/-- C1 (evaluated at its failing input).  In the toy world, with registration
failing and every earlier step succeeding, `Dial "tcp://:80"` returns
`(nil, "register failed")` after calling `addConn` on the connection with descriptor 4,
makes no `syscall.Close` call, and leaves the duplicated descriptor 4 open: the
duplicated descriptor is closed zero times, not once. -/
theorem Dial_register_failure_leaves_dup_open :
    (Dial (toyEnv (some .register)) 2 "tcp://:80" "ctx" []).conn = none ∧
    (Dial (toyEnv (some .register)) 2 "tcp://:80" "ctx" []).err = some "register failed" ∧
    addConnCalls (Dial (toyEnv (some .register)) 2 "tcp://:80" "ctx" []).trace
      = [⟨4, "ctx", "local", "remote", 2, 0, false⟩] ∧
    fdCloses (Dial (toyEnv (some .register)) 2 "tcp://:80" "ctx" []).trace = [] ∧
    (Dial (toyEnv (some .register)) 2 "tcp://:80" "ctx" []).world = [4] := by
  decide

/-- C2.  When the descriptor was duplicated and `syscall.SetNonblock` on the duplicate
fails with `e`, `Dial` returns `(nil, e)`, its only `syscall.Close` call is on the
duplicate (exactly one close, made after the failed `SetNonblock`), and it calls
neither `selectLoop` nor `addConn`. -/
theorem Dial_nonblock_failure_closes_dup {σ ε NetConn Addr Loop Ctx Events : Type}
    (E : Env σ ε NetConn Addr Loop Ctx Events) (ev : Events) (addr : String) (ctx : Ctx)
    (w : σ) (u : URL) (c : NetConn) (nfd : Int) (e : ε) (w1 w2 w4 : σ)
    (hp : E.urlParse (dialURL addr) = .ok u)
    (hc : E.netDial u.Scheme (dialAddress u) w = (.ok c, w1))
    (hd : E.DupNetConn c w1 = (.ok nfd, w2))
    (hn : E.SetNonblock nfd true (E.connClose c w2) = (some e, w4)) :
    (Dial E ev addr ctx w).conn = none ∧
    (Dial E ev addr ctx w).err = some e ∧
    fdCloses (Dial E ev addr ctx w).trace = [nfd] ∧
    selectLoopCalls (Dial E ev addr ctx w).trace = [] ∧
    addConnCalls (Dial E ev addr ctx w).trace = [] ∧
    (∃ pre, (Dial E ev addr ctx w).trace = pre ++ [.SetNonblock nfd true, .sysClose nfd]) ∧
    (Dial E ev addr ctx w).world = E.sysClose nfd w4 := by
  rw [Dial_nonblock_error E ev addr ctx w hp hc hd hn]
  refine ⟨rfl, rfl, by simp [fdCloses], by simp [selectLoopCalls], by simp [addConnCalls],
    ⟨[.urlParse (dialURL addr), .netDial u.Scheme (dialAddress u), .LocalAddr c,
      .RemoteAddr c, .DupNetConn c, .connClose c], by simp⟩, rfl⟩

/-- Witness for C2: the toy world in which `SetNonblock` fails. -/
theorem Dial_nonblock_failure_closes_dup_witness :
    (Dial (toyEnv (some .nonblock)) 2 "tcp://:80" "ctx" []).conn = none ∧
    (Dial (toyEnv (some .nonblock)) 2 "tcp://:80" "ctx" []).err = some "setnonblock failed" ∧
    fdCloses (Dial (toyEnv (some .nonblock)) 2 "tcp://:80" "ctx" []).trace = [4] ∧
    selectLoopCalls (Dial (toyEnv (some .nonblock)) 2 "tcp://:80" "ctx" []).trace = [] ∧
    addConnCalls (Dial (toyEnv (some .nonblock)) 2 "tcp://:80" "ctx" []).trace = [] ∧
    (∃ pre, (Dial (toyEnv (some .nonblock)) 2 "tcp://:80" "ctx" []).trace
      = pre ++ [.SetNonblock 4 true, .sysClose 4]) ∧
    (Dial (toyEnv (some .nonblock)) 2 "tcp://:80" "ctx" []).world = [] :=
  Dial_nonblock_failure_closes_dup (toyEnv (some .nonblock)) 2 "tcp://:80" "ctx" []
    ⟨"tcp", ":80", ""⟩ 3 4 "setnonblock failed" [3] [4, 3] [4]
    rfl rfl rfl rfl

/-- C3.  `Dial` returns exactly one of a connection and an error: either a connection
and the nil error, or no connection and a non-nil error; so the connection is non-nil
if and only if the error is nil; and a connection is returned only when parse,
connect, duplicate, set-non-blocking and registration all succeeded. -/
theorem Dial_conn_iff_no_error {σ ε NetConn Addr Loop Ctx Events : Type}
    (E : Env σ ε NetConn Addr Loop Ctx Events) (ev : Events) (addr : String) (ctx : Ctx)
    (w : σ) :
    (((Dial E ev addr ctx w).conn.isSome = true ∧ (Dial E ev addr ctx w).err = none) ∨
      ((Dial E ev addr ctx w).conn = none ∧ (Dial E ev addr ctx w).err.isSome = true)) ∧
    ((Dial E ev addr ctx w).conn.isSome = true ↔ (Dial E ev addr ctx w).err = none) ∧
    (∀ fdc, (Dial E ev addr ctx w).conn = some fdc →
      ∃ u c w1 nfd w2 w4 w6, Succeeds E ev addr ctx w u c w1 nfd w2 w4 w6) := by
  refine ⟨?_, ?_, ?_⟩
  · rcases Dial_outcome E ev addr ctx w with ⟨e, hn, he⟩ | ⟨u, c, w1, nfd, w2, w4, w6, _, hc, he⟩
    · right; simp [hn, he]
    · left; simp [hc, he]
  · rcases Dial_outcome E ev addr ctx w with ⟨e, hn, he⟩ | ⟨u, c, w1, nfd, w2, w4, w6, _, hc, he⟩
    · simp [hn, he]
    · simp [hc, he]
  · intro fdc h
    obtain ⟨u, c, w1, nfd, w2, w4, w6, hs, _⟩ := Dial_conn_some E ev addr ctx w h
    exact ⟨u, c, w1, nfd, w2, w4, w6, hs⟩

/-- Witness for C3: in the toy world without failures `Dial` returns a connection
and the nil error, and all five steps succeeded. -/
theorem Dial_conn_iff_no_error_witness :
    ((Dial (toyEnv none) 2 "tcp://:80" "ctx" []).conn.isSome = true ↔
      (Dial (toyEnv none) 2 "tcp://:80" "ctx" []).err = none) ∧
    (Dial (toyEnv none) 2 "tcp://:80" "ctx" []).err = none ∧
    ∃ u c w1 nfd w2 w4 w6, Succeeds (toyEnv none) 2 "tcp://:80" "ctx" [] u c w1 nfd w2 w4 w6 :=
  ⟨(Dial_conn_iff_no_error (toyEnv none) 2 "tcp://:80" "ctx" []).2.1,
    by decide,
    (Dial_conn_iff_no_error (toyEnv none) 2 "tcp://:80" "ctx" []).2.2
      ⟨4, "ctx", "local", "remote", 2, 0, false⟩ (by decide)⟩

/-- C4.  `Dial` fails fast and hands back the failing step's own error: for each of
the five steps (parse, connect, duplicate, set-non-blocking, register), when it is the
first to fail with `e`, `Dial` returns `(nil, e)` and the calls it made are exactly
those up to the failing step (plus the wrapper close after a duplication attempt and
the descriptor close after a failed `SetNonblock`), so no later step runs; when
parsing or connecting fails there is no `DupNetConn` call and no `addConn` call. -/
theorem Dial_fail_fast {σ ε NetConn Addr Loop Ctx Events : Type}
    (E : Env σ ε NetConn Addr Loop Ctx Events) (ev : Events) (addr : String) (ctx : Ctx)
    (w : σ) :
    (∀ e, E.urlParse (dialURL addr) = .error e →
      (Dial E ev addr ctx w).conn = none ∧ (Dial E ev addr ctx w).err = some e ∧
      (Dial E ev addr ctx w).trace = [.urlParse (dialURL addr)] ∧
      connectCalls (Dial E ev addr ctx w).trace = [] ∧
      dupCalls (Dial E ev addr ctx w).trace = [] ∧
      addConnCalls (Dial E ev addr ctx w).trace = []) ∧
    (∀ u, E.urlParse (dialURL addr) = .ok u →
      (∀ e w1, E.netDial u.Scheme (dialAddress u) w = (.error e, w1) →
        (Dial E ev addr ctx w).conn = none ∧ (Dial E ev addr ctx w).err = some e ∧
        (Dial E ev addr ctx w).trace
          = [.urlParse (dialURL addr), .netDial u.Scheme (dialAddress u)] ∧
        dupCalls (Dial E ev addr ctx w).trace = [] ∧
        addConnCalls (Dial E ev addr ctx w).trace = []) ∧
      (∀ c w1, E.netDial u.Scheme (dialAddress u) w = (.ok c, w1) →
        (∀ e w2, E.DupNetConn c w1 = (.error e, w2) →
          (Dial E ev addr ctx w).conn = none ∧ (Dial E ev addr ctx w).err = some e ∧
          (Dial E ev addr ctx w).trace
            = [.urlParse (dialURL addr), .netDial u.Scheme (dialAddress u), .LocalAddr c,
                .RemoteAddr c, .DupNetConn c, .connClose c]) ∧
        (∀ nfd w2, E.DupNetConn c w1 = (.ok nfd, w2) →
          (∀ e w4, E.SetNonblock nfd true (E.connClose c w2) = (some e, w4) →
            (Dial E ev addr ctx w).conn = none ∧ (Dial E ev addr ctx w).err = some e ∧
            (Dial E ev addr ctx w).trace
              = [.urlParse (dialURL addr), .netDial u.Scheme (dialAddress u), .LocalAddr c,
                  .RemoteAddr c, .DupNetConn c, .connClose c, .SetNonblock nfd true,
                  .sysClose nfd]) ∧
          (∀ w4, E.SetNonblock nfd true (E.connClose c w2) = (none, w4) →
            ∀ e w6, E.addConn ev (builtConn E ev ctx u c w1 nfd w4)
                (E.selectLoop ev nfd w4).2 = (some e, w6) →
              (Dial E ev addr ctx w).conn = none ∧ (Dial E ev addr ctx w).err = some e ∧
              (Dial E ev addr ctx w).trace
                = [.urlParse (dialURL addr), .netDial u.Scheme (dialAddress u),
                    .LocalAddr c, .RemoteAddr c, .DupNetConn c, .connClose c,
                    .SetNonblock nfd true, .selectLoop nfd,
                    .addConn (builtConn E ev ctx u c w1 nfd w4)])))) := by
  refine ⟨fun e hp => ?_, fun u hp => ⟨fun e w1 hc => ?_, fun c w1 hc =>
    ⟨fun e w2 hd => ?_, fun nfd w2 hd => ⟨fun e w4 hn => ?_, fun w4 hn e w6 ha => ?_⟩⟩⟩⟩
  · rw [Dial_parse_error E ev addr ctx w hp]
    simp [connectCalls, dupCalls, addConnCalls]
  · rw [Dial_connect_error E ev addr ctx w hp hc]
    simp [dupCalls, addConnCalls]
  · rw [Dial_dup_error E ev addr ctx w hp hc hd]
    exact ⟨rfl, rfl, rfl⟩
  · rw [Dial_nonblock_error E ev addr ctx w hp hc hd hn]
    exact ⟨rfl, rfl, rfl⟩
  · rw [Dial_register_error E ev addr ctx w hp hc hd hn ha]
    exact ⟨rfl, rfl, rfl⟩

/-- Witness for C4: the five failing toy worlds, one per step. -/
theorem Dial_fail_fast_witness :
    (Dial (toyEnv (some .parse)) 2 "tcp://:80" "ctx" []).err = some "parse failed" ∧
    (Dial (toyEnv (some .connect)) 2 "tcp://:80" "ctx" []).err = some "connect failed" ∧
    (Dial (toyEnv (some .dup)) 2 "tcp://:80" "ctx" []).err = some "dup failed" ∧
    (Dial (toyEnv (some .nonblock)) 2 "tcp://:80" "ctx" []).err = some "setnonblock failed" ∧
    (Dial (toyEnv (some .register)) 2 "tcp://:80" "ctx" []).err = some "register failed" :=
  ⟨((Dial_fail_fast (toyEnv (some .parse)) 2 "tcp://:80" "ctx" []).1
      "parse failed" rfl).2.1,
    (((Dial_fail_fast (toyEnv (some .connect)) 2 "tcp://:80" "ctx" []).2
      ⟨"tcp", ":80", ""⟩ rfl).1 "connect failed" [] rfl).2.1,
    ((((Dial_fail_fast (toyEnv (some .dup)) 2 "tcp://:80" "ctx" []).2
      ⟨"tcp", ":80", ""⟩ rfl).2 3 [3] rfl).1 "dup failed" [3] rfl).2.1,
    (((((Dial_fail_fast (toyEnv (some .nonblock)) 2 "tcp://:80" "ctx" []).2
      ⟨"tcp", ":80", ""⟩ rfl).2 3 [3] rfl).2 4 [4, 3] rfl).1 "setnonblock failed" [4]
        rfl).2.1,
    (((((Dial_fail_fast (toyEnv (some .register)) 2 "tcp://:80" "ctx" []).2
      ⟨"tcp", ":80", ""⟩ rfl).2 3 [3] rfl).2 4 [4, 3] rfl).2 [4] rfl "register failed" [4]
        rfl).2.1⟩

/-- C5.  Scheme defaulting.  If `addr` does not contain `"://"`, `Dial addr` and
`Dial ("tcp://" + addr)` are the same computation (same results, same calls, same
final world), `url.Parse` is called once, on `"tcp://" + addr`, and the network handed
to `net.Dial` is the scheme `url.Parse` reads off that string; if `addr` contains
`"://"`, `url.Parse` is called once, on `addr` itself. -/
theorem Dial_scheme_default {σ ε NetConn Addr Loop Ctx Events : Type}
    (E : Env σ ε NetConn Addr Loop Ctx Events) (ev : Events) (addr : String) (ctx : Ctx)
    (w : σ) :
    (Contains addr "://" = false →
      Dial E ev addr ctx w = Dial E ev ("tcp://" ++ addr) ctx w ∧
      parseCalls (Dial E ev addr ctx w).trace = ["tcp://" ++ addr] ∧
      ∀ u, E.urlParse ("tcp://" ++ addr) = .ok u →
        connectCalls (Dial E ev addr ctx w).trace = [(u.Scheme, dialAddress u)]) ∧
    (Contains addr "://" = true →
      parseCalls (Dial E ev addr ctx w).trace = [addr]) := by
  constructor
  · intro h
    have h1 : dialURL addr = "tcp://" ++ addr := by simp [dialURL, h]
    refine ⟨?_, ?_, ?_⟩
    · simp only [Dial, h1, dialURL_tcp_prepended]
    · rw [Dial_parseCalls, h1]
    · intro u hu
      rw [← h1] at hu
      exact Dial_connectCalls E ev addr ctx w hu
  · intro h
    have h1 : dialURL addr = addr := by simp [dialURL, h]
    rw [Dial_parseCalls, h1]

/-- Witness for C5: `"127.0.0.1:9"` has no `"://"`, `"tcp://:80"` has one. -/
theorem Dial_scheme_default_witness :
    (Dial (toyEnv none) 2 "127.0.0.1:9" "ctx" []
        = Dial (toyEnv none) 2 ("tcp://" ++ "127.0.0.1:9") "ctx" [] ∧
      parseCalls (Dial (toyEnv none) 2 "127.0.0.1:9" "ctx" []).trace
        = ["tcp://" ++ "127.0.0.1:9"] ∧
      connectCalls (Dial (toyEnv none) 2 "127.0.0.1:9" "ctx" []).trace
        = [("tcp", "127.0.0.1:9")]) ∧
    parseCalls (Dial (toyEnv none) 2 "tcp://:80" "ctx" []).trace = ["tcp://:80"] :=
  ⟨⟨((Dial_scheme_default (toyEnv none) 2 "127.0.0.1:9" "ctx" []).1 (by decide)).1,
      ((Dial_scheme_default (toyEnv none) 2 "127.0.0.1:9" "ctx" []).1 (by decide)).2.1,
      ((Dial_scheme_default (toyEnv none) 2 "127.0.0.1:9" "ctx" []).1 (by decide)).2.2
        ⟨"tcp", "127.0.0.1:9", ""⟩ rfl⟩,
    (Dial_scheme_default (toyEnv none) 2 "tcp://:80" "ctx" []).2 (by decide)⟩

/-- C6.  Address selection.  Whenever the address parses to `u`, `net.Dial` is called
exactly once, with network `u.Scheme` and with address `u.Path` if the scheme is
`unix`, `unixgram` or `unixpacket`, and `u.Host` for every other scheme.  For a parser
that reads `"unix:///path/your/unix.sock"` as scheme `unix` with path
`/path/your/unix.sock`, and `"tcp://:80"` as scheme `tcp` with host `:80`, the calls
are `net.Dial("unix", "/path/your/unix.sock")` and `net.Dial("tcp", ":80")`. -/
theorem Dial_connect_target {σ ε NetConn Addr Loop Ctx Events : Type}
    (E : Env σ ε NetConn Addr Loop Ctx Events) (ev : Events) (ctx : Ctx) (w : σ) :
    (∀ addr u, E.urlParse (dialURL addr) = .ok u →
      ((u.Scheme = "unix" ∨ u.Scheme = "unixgram" ∨ u.Scheme = "unixpacket") →
        connectCalls (Dial E ev addr ctx w).trace = [(u.Scheme, u.Path)]) ∧
      (¬ (u.Scheme = "unix" ∨ u.Scheme = "unixgram" ∨ u.Scheme = "unixpacket") →
        connectCalls (Dial E ev addr ctx w).trace = [(u.Scheme, u.Host)])) ∧
    (∀ host, E.urlParse "unix:///path/your/unix.sock"
        = .ok ⟨"unix", host, "/path/your/unix.sock"⟩ →
      connectCalls (Dial E ev "unix:///path/your/unix.sock" ctx w).trace
        = [("unix", "/path/your/unix.sock")]) ∧
    (∀ path, E.urlParse "tcp://:80" = .ok ⟨"tcp", ":80", path⟩ →
      connectCalls (Dial E ev "tcp://:80" ctx w).trace = [("tcp", ":80")]) := by
  refine ⟨fun addr u hp => ⟨fun hs => ?_, fun hs => ?_⟩, fun host hp => ?_, fun path hp => ?_⟩
  · rw [Dial_connectCalls E ev addr ctx w hp]
    have : dialAddress u = u.Path := by
      rcases hs with h | h | h <;> simp [dialAddress, h]
    rw [this]
  · rw [Dial_connectCalls E ev addr ctx w hp]
    have : dialAddress u = u.Host := by
      simp only [not_or] at hs
      simp [dialAddress, hs.1, hs.2.1, hs.2.2]
    rw [this]
  · have hu : dialURL "unix:///path/your/unix.sock" = "unix:///path/your/unix.sock" := by
      decide
    rw [← hu] at hp
    rw [Dial_connectCalls E ev _ ctx w hp]
    simp [dialAddress]
  · have hu : dialURL "tcp://:80" = "tcp://:80" := by decide
    rw [← hu] at hp
    rw [Dial_connectCalls E ev _ ctx w hp]
    simp [dialAddress]

/-- Witness for C6: the two addresses of the doc comment and a `udp` address, in the
toy world. -/
theorem Dial_connect_target_witness :
    connectCalls (Dial (toyEnv none) 2 "unixgram:///tmp/test.sock" "ctx" []).trace
      = [("unixgram", "/tmp/test.sock")] ∧
    connectCalls (Dial (toyEnv none) 2 "udp://127.0.0.1:53" "ctx" []).trace
      = [("udp", "127.0.0.1:53")] ∧
    connectCalls (Dial (toyEnv none) 2 "unix:///path/your/unix.sock" "ctx" []).trace
      = [("unix", "/path/your/unix.sock")] ∧
    connectCalls (Dial (toyEnv none) 2 "tcp://:80" "ctx" []).trace = [("tcp", ":80")] :=
  ⟨((Dial_connect_target (toyEnv none) 2 "ctx" []).1 "unixgram:///tmp/test.sock"
      ⟨"unixgram", "", "/tmp/test.sock"⟩ rfl).1 (by decide),
    ((Dial_connect_target (toyEnv none) 2 "ctx" []).1 "udp://127.0.0.1:53"
      ⟨"udp", "127.0.0.1:53", ""⟩ rfl).2 (by decide),
    (Dial_connect_target (toyEnv none) 2 "ctx" []).2.1 "" rfl,
    (Dial_connect_target (toyEnv none) 2 "ctx" []).2.2 "" rfl⟩

/-- C7 (as stated) fails for `unixgram`: in the toy world `Dial` of a `unixgram`
address succeeds and the returned connection has `isUdp = false`. -/
theorem Dial_unixgram_isUdp_false :
    (toyEnv none).urlParse (dialURL "unixgram:///tmp/test.sock")
      = .ok ⟨"unixgram", "", "/tmp/test.sock"⟩ ∧
    (Dial (toyEnv none) 2 "unixgram:///tmp/test.sock" "ctx" []).err = none ∧
    (Dial (toyEnv none) 2 "unixgram:///tmp/test.sock" "ctx" []).conn
      = some ⟨4, "ctx", "local", "remote", 2, 0, false⟩ :=
  ⟨rfl, by decide, by decide⟩

/-- C7 (amended).  For every successful `Dial` whose address parsed to `u`, the
connection's `isUdp` is `strings.HasPrefix(u.Scheme, "udp")`: it is true for the
schemes `udp`, `udp4`, `udp6`, and false for `tcp`, `tcp4`, `tcp6`, `unix` and also
for `unixgram`. -/
theorem Dial_isUdp_udp_schemes {σ ε NetConn Addr Loop Ctx Events : Type}
    (E : Env σ ε NetConn Addr Loop Ctx Events) (ev : Events) (addr : String) (ctx : Ctx)
    (w : σ) (u : URL) (fdc : fdConn Events Ctx Addr Loop)
    (hp : E.urlParse (dialURL addr) = .ok u)
    (h : (Dial E ev addr ctx w).conn = some fdc) :
    fdc.isUdp = HasPrefix u.Scheme "udp" ∧
    (u.Scheme = "udp" ∨ u.Scheme = "udp4" ∨ u.Scheme = "udp6" → fdc.isUdp = true) ∧
    (u.Scheme = "tcp" ∨ u.Scheme = "tcp4" ∨ u.Scheme = "tcp6" ∨ u.Scheme = "unix" ∨
      u.Scheme = "unixgram" → fdc.isUdp = false) := by
  obtain ⟨u', c, w1, nfd, w2, w4, w6, hs, hf⟩ := Dial_conn_some E ev addr ctx w h
  have hu : u' = u := by
    have := hs.parse
    rw [hp] at this
    exact (Except.ok.inj this).symm
  subst hu
  have hi : fdc.isUdp = HasPrefix u'.Scheme "udp" := by rw [hf]; rfl
  refine ⟨hi, fun hs => ?_, fun hs => ?_⟩
  · rw [hi]
    rcases hs with h | h | h <;> rw [h] <;> decide
  · rw [hi]
    rcases hs with h | h | h | h | h <;> rw [h] <;> decide

/-- Witness for C7 (amended): a `udp` dial in the toy world. -/
theorem Dial_isUdp_udp_schemes_witness :
    (Dial (toyEnv none) 2 "udp://127.0.0.1:53" "ctx" []).conn
      = some ⟨4, "ctx", "local", "remote", 2, 0, true⟩ ∧
    (⟨4, "ctx", "local", "remote", 2, 0, true⟩ : fdConn Int String String Int).isUdp = true :=
  ⟨by decide,
    (Dial_isUdp_udp_schemes (toyEnv none) 2 "udp://127.0.0.1:53" "ctx" []
      ⟨"udp", "127.0.0.1:53", ""⟩ ⟨4, "ctx", "local", "remote", 2, 0, true⟩
      rfl (by decide)).2.1 (Or.inl rfl)⟩

/-- C8.  Once `net.Dial` has returned the wrapper `c` in world `w1`, the calls of
`Dial` begin with `url.Parse`, `net.Dial`, `c.LocalAddr()`, `c.RemoteAddr()`,
`DupNetConn(c)`, `c.Close()`, in this order, whatever `DupNetConn` returns; every later
call is a `SetNonblock`, `syscall.Close`, `selectLoop` or `addConn`, so `c.Close()` is
the only wrapper close, it directly follows the duplication attempt and precedes every
`SetNonblock`.  The close is carried out: with `w2` the world `DupNetConn` leaves,
`c.Close()` runs in `w2`; if duplication failed, `Dial` ends in the world
`E.connClose c w2` with the duplication error; if it succeeded, `SetNonblock` runs in
the world `E.connClose c w2` and the final world is what the later calls make of it
(`syscall.Close(nfd)` after a failed `SetNonblock`, else `selectLoop` and `addConn`).
The addresses of a returned connection are those read in `w1`, before the close. -/
theorem Dial_closes_wrapper_once {σ ε NetConn Addr Loop Ctx Events : Type}
    (E : Env σ ε NetConn Addr Loop Ctx Events) (ev : Events) (addr : String) (ctx : Ctx)
    (w : σ) (u : URL) (c : NetConn) (w1 : σ)
    (hp : E.urlParse (dialURL addr) = .ok u)
    (hc : E.netDial u.Scheme (dialAddress u) w = (.ok c, w1)) :
    (∃ rest, (Dial E ev addr ctx w).trace
        = [.urlParse (dialURL addr), .netDial u.Scheme (dialAddress u), .LocalAddr c,
            .RemoteAddr c, .DupNetConn c, .connClose c] ++ rest ∧
      ∀ e ∈ rest, (∃ fd b, e = .SetNonblock fd b) ∨ (∃ fd, e = .sysClose fd) ∨
        (∃ fd, e = .selectLoop fd) ∨ ∃ fdc, e = .addConn fdc) ∧
    wrapperCloses (Dial E ev addr ctx w).trace = [c] ∧
    dupCalls (Dial E ev addr ctx w).trace = [c] ∧
    (∀ e w2, E.DupNetConn c w1 = (.error e, w2) →
      (Dial E ev addr ctx w).world = E.connClose c w2 ∧
      (Dial E ev addr ctx w).err = some e ∧
      (Dial E ev addr ctx w).conn = none ∧
      fdCloses (Dial E ev addr ctx w).trace = []) ∧
    (∀ nfd w2, E.DupNetConn c w1 = (.ok nfd, w2) →
      (∀ e w4, E.SetNonblock nfd true (E.connClose c w2) = (some e, w4) →
        (Dial E ev addr ctx w).world = E.sysClose nfd w4 ∧
        (Dial E ev addr ctx w).err = some e) ∧
      (∀ w4, E.SetNonblock nfd true (E.connClose c w2) = (none, w4) →
        (Dial E ev addr ctx w).world
          = (E.addConn ev (builtConn E ev ctx u c w1 nfd w4) (E.selectLoop ev nfd w4).2).2 ∧
        fdCloses (Dial E ev addr ctx w).trace = [] ∧
        ∀ fdc, (Dial E ev addr ctx w).conn = some fdc →
          fdc.localAddr = E.LocalAddr c w1 ∧ fdc.remoteAddr = E.RemoteAddr c w1 ∧
          fdc.fd = nfd)) := by
  refine ⟨?_, ?_, ?_, fun e w2 hd => ?_, fun nfd w2 hd =>
    ⟨fun e w4 hn => ?_, fun w4 hn => ?_⟩⟩
  · rcases hd : E.DupNetConn c w1 with ⟨e | nfd, w2⟩
    · rw [Dial_dup_error E ev addr ctx w hp hc hd]
      exact ⟨[], by simp, by simp⟩
    rcases hn : E.SetNonblock nfd true (E.connClose c w2) with ⟨_ | e, w4⟩
    · rcases ha : E.addConn ev (builtConn E ev ctx u c w1 nfd w4) (E.selectLoop ev nfd w4).2
        with ⟨_ | e, w6⟩
      · rw [Dial_success E ev addr ctx w hp hc hd hn ha]
        exact ⟨[.SetNonblock nfd true, .selectLoop nfd,
          .addConn (builtConn E ev ctx u c w1 nfd w4)], by simp, by simp⟩
      · rw [Dial_register_error E ev addr ctx w hp hc hd hn ha]
        exact ⟨[.SetNonblock nfd true, .selectLoop nfd,
          .addConn (builtConn E ev ctx u c w1 nfd w4)], by simp, by simp⟩
    · rw [Dial_nonblock_error E ev addr ctx w hp hc hd hn]
      exact ⟨[.SetNonblock nfd true, .sysClose nfd], by simp, by simp⟩
  · exact Dial_wrapperCloses E ev addr ctx w hp hc
  · exact Dial_dupCalls E ev addr ctx w hp hc
  · rw [Dial_dup_error E ev addr ctx w hp hc hd]
    exact ⟨rfl, rfl, rfl, by simp [fdCloses]⟩
  · rw [Dial_nonblock_error E ev addr ctx w hp hc hd hn]
    exact ⟨rfl, rfl⟩
  · rcases ha : E.addConn ev (builtConn E ev ctx u c w1 nfd w4) (E.selectLoop ev nfd w4).2
      with ⟨_ | e, w6⟩
    · rw [Dial_success E ev addr ctx w hp hc hd hn ha]
      refine ⟨rfl, by simp [fdCloses], fun fdc hf => ?_⟩
      have hf' : builtConn E ev ctx u c w1 nfd w4 = fdc := Option.some.inj hf
      subst hf'
      exact ⟨rfl, rfl, rfl⟩
    · rw [Dial_register_error E ev addr ctx w hp hc hd hn ha]
      refine ⟨rfl, by simp [fdCloses], fun fdc hf => ?_⟩
      cases hf

/-- Witness for C8.  In the toy world `net.Dial` opens descriptor 3 for the wrapper.
When duplication fails, the wrapper is closed once and no descriptor stays open.
When all steps succeed, the wrapper's descriptor 3 is gone and the duplicate 4 is the
one descriptor left open. -/
theorem Dial_closes_wrapper_once_witness :
    (wrapperCloses (Dial (toyEnv (some .dup)) 2 "tcp://:80" "ctx" []).trace = [3] ∧
      dupCalls (Dial (toyEnv (some .dup)) 2 "tcp://:80" "ctx" []).trace = [3] ∧
      (Dial (toyEnv (some .dup)) 2 "tcp://:80" "ctx" []).world
        = (toyEnv (some .dup)).connClose 3 [3] ∧
      (toyEnv (some .dup)).connClose 3 [3] = []) ∧
    (wrapperCloses (Dial (toyEnv none) 2 "tcp://:80" "ctx" []).trace = [3] ∧
      (Dial (toyEnv none) 2 "tcp://:80" "ctx" []).world
        = ((toyEnv none).addConn 2 (builtConn (toyEnv none) 2 "ctx" ⟨"tcp", ":80", ""⟩ 3 [3] 4
            [4]) ((toyEnv none).selectLoop 2 4 [4]).2).2 ∧
      (toyEnv none).connClose 3 [4, 3] = [4] ∧
      (Dial (toyEnv none) 2 "tcp://:80" "ctx" []).world = [4]) :=
  ⟨⟨(Dial_closes_wrapper_once (toyEnv (some .dup)) 2 "tcp://:80" "ctx" []
        ⟨"tcp", ":80", ""⟩ 3 [3] rfl rfl).2.1,
      (Dial_closes_wrapper_once (toyEnv (some .dup)) 2 "tcp://:80" "ctx" []
        ⟨"tcp", ":80", ""⟩ 3 [3] rfl rfl).2.2.1,
      ((Dial_closes_wrapper_once (toyEnv (some .dup)) 2 "tcp://:80" "ctx" []
        ⟨"tcp", ":80", ""⟩ 3 [3] rfl rfl).2.2.2.1 "dup failed" [3] rfl).1,
      by decide⟩,
    ⟨(Dial_closes_wrapper_once (toyEnv none) 2 "tcp://:80" "ctx" []
        ⟨"tcp", ":80", ""⟩ 3 [3] rfl rfl).2.1,
      (((Dial_closes_wrapper_once (toyEnv none) 2 "tcp://:80" "ctx" []
        ⟨"tcp", ":80", ""⟩ 3 [3] rfl rfl).2.2.2.2 4 [4, 3] rfl).2 [4] rfl).1,
      by decide,
      by decide⟩⟩

/-- C9.  A connection returned by `Dial addr ctx` has `ctx` as its context, the
addresses that `LocalAddr()` and `RemoteAddr()` of the `net.Dial` result reported
(read before the wrapper is closed), and as `fd` the descriptor returned by
`DupNetConn`. -/
theorem Dial_conn_fields {σ ε NetConn Addr Loop Ctx Events : Type}
    (E : Env σ ε NetConn Addr Loop Ctx Events) (ev : Events) (addr : String) (ctx : Ctx)
    (w : σ) (fdc : fdConn Events Ctx Addr Loop)
    (h : (Dial E ev addr ctx w).conn = some fdc) :
    fdc.ctx = ctx ∧
    ∃ u c w1 nfd w2,
      E.urlParse (dialURL addr) = .ok u ∧
      E.netDial u.Scheme (dialAddress u) w = (.ok c, w1) ∧
      E.DupNetConn c w1 = (.ok nfd, w2) ∧
      fdc.localAddr = E.LocalAddr c w1 ∧
      fdc.remoteAddr = E.RemoteAddr c w1 ∧
      fdc.fd = nfd := by
  obtain ⟨u, c, w1, nfd, w2, w4, w6, hs, hf⟩ := Dial_conn_some E ev addr ctx w h
  subst hf
  exact ⟨rfl, u, c, w1, nfd, w2, hs.parse, hs.connect, hs.dup, rfl, rfl, rfl⟩

/-- Witness for C9: a successful dial in the toy world; the wrapper is descriptor 3,
the connection carries the duplicate 4. -/
theorem Dial_conn_fields_witness :
    (Dial (toyEnv none) 2 "tcp://:80" "ctx" []).conn
      = some ⟨4, "ctx", "local", "remote", 2, 0, false⟩ ∧
    (⟨4, "ctx", "local", "remote", 2, 0, false⟩ : fdConn Int String String Int).ctx
      = "ctx" :=
  ⟨by decide,
    (Dial_conn_fields (toyEnv none) 2 "tcp://:80" "ctx" []
      ⟨4, "ctx", "local", "remote", 2, 0, false⟩ (by decide)).1⟩

/-- C10.  A successful `Dial` ends with the calls `SetNonblock(nfd, true)`,
`selectLoop(nfd)`, `addConn(fdc)`, in this order, where `nfd` is the descriptor
returned by `DupNetConn`, that `SetNonblock` call returned nil, `fdc` is the returned
connection, and `fdc.loop` is what `selectLoop(nfd)` returned; these are the only
`SetNonblock`, `selectLoop` and `addConn` calls. -/
theorem Dial_success_order {σ ε NetConn Addr Loop Ctx Events : Type}
    (E : Env σ ε NetConn Addr Loop Ctx Events) (ev : Events) (addr : String) (ctx : Ctx)
    (w : σ) (fdc : fdConn Events Ctx Addr Loop)
    (h : (Dial E ev addr ctx w).conn = some fdc) :
    ∃ pre c w1 nfd w2 w4,
      (Dial E ev addr ctx w).trace
        = pre ++ [.SetNonblock nfd true, .selectLoop nfd, .addConn fdc] ∧
      E.DupNetConn c w1 = (.ok nfd, w2) ∧
      E.SetNonblock nfd true (E.connClose c w2) = (none, w4) ∧
      fdc.fd = nfd ∧
      fdc.loop = (E.selectLoop ev nfd w4).1 ∧
      E.addConn ev fdc (E.selectLoop ev nfd w4).2 = (none, (Dial E ev addr ctx w).world) ∧
      nonblockCalls (Dial E ev addr ctx w).trace = [(nfd, true)] ∧
      selectLoopCalls (Dial E ev addr ctx w).trace = [nfd] ∧
      addConnCalls (Dial E ev addr ctx w).trace = [fdc] := by
  obtain ⟨u, c, w1, nfd, w2, w4, w6, hs, hf⟩ := Dial_conn_some E ev addr ctx w h
  subst hf
  refine ⟨[.urlParse (dialURL addr), .netDial u.Scheme (dialAddress u), .LocalAddr c,
    .RemoteAddr c, .DupNetConn c, .connClose c], c, w1, nfd, w2, w4, ?_⟩
  rw [Dial_success E ev addr ctx w hs.parse hs.connect hs.dup hs.nonblock hs.register]
  refine ⟨by simp, hs.dup, hs.nonblock, rfl, rfl, hs.register, ?_, ?_, ?_⟩
  · simp [nonblockCalls]
  · simp [selectLoopCalls]
  · simp [addConnCalls]

/-- Witness for C10: a successful dial in the toy world with two loops; descriptor 4
goes to loop `4 % 2 = 0`. -/
theorem Dial_success_order_witness :
    (Dial (toyEnv none) 2 "tcp://:80" "ctx" []).conn
      = some ⟨4, "ctx", "local", "remote", 2, 0, false⟩ ∧
    ∃ pre c w1 nfd w2 w4,
      (Dial (toyEnv none) 2 "tcp://:80" "ctx" []).trace
        = pre ++ [.SetNonblock nfd true, .selectLoop nfd,
            .addConn ⟨4, "ctx", "local", "remote", 2, 0, false⟩] ∧
      (toyEnv none).DupNetConn c w1 = (.ok nfd, w2) ∧
      (toyEnv none).SetNonblock nfd true ((toyEnv none).connClose c w2) = (none, w4) ∧
      (⟨4, "ctx", "local", "remote", 2, 0, false⟩ : fdConn Int String String Int).fd = nfd ∧
      (⟨4, "ctx", "local", "remote", 2, 0, false⟩ : fdConn Int String String Int).loop
        = ((toyEnv none).selectLoop 2 nfd w4).1 ∧
      (toyEnv none).addConn 2 ⟨4, "ctx", "local", "remote", 2, 0, false⟩
          ((toyEnv none).selectLoop 2 nfd w4).2
        = (none, (Dial (toyEnv none) 2 "tcp://:80" "ctx" []).world) ∧
      nonblockCalls (Dial (toyEnv none) 2 "tcp://:80" "ctx" []).trace = [(nfd, true)] ∧
      selectLoopCalls (Dial (toyEnv none) 2 "tcp://:80" "ctx" []).trace = [nfd] ∧
      addConnCalls (Dial (toyEnv none) 2 "tcp://:80" "ctx" []).trace
        = [⟨4, "ctx", "local", "remote", 2, 0, false⟩] :=
  ⟨by decide,
    Dial_success_order (toyEnv none) 2 "tcp://:80" "ctx" []
      ⟨4, "ctx", "local", "remote", 2, 0, false⟩ (by decide)⟩

end Uio
